import Mathlib

/-!
Verification of the Deriverse trading-history fetcher.

Shallow embedding of the binary event decoder and the paginated fetch
pipeline of src/services/TradeFetcher.ts, together with the legacy
decoder embedded in src/utils/decode-history.ts, and proofs checking the
specification's claims against them.

Modelling conventions:
- A payload is the byte sequence denoted by the base64 text of a
  "Program data:" log line; the base64 text decoding itself is not
  modelled (parseLog receives the decoded bytes), and the originalLog
  field, an identity copy of that text, is omitted from the event
  records.
- JavaScript number arithmetic on the decoded fixed-point values is
  modelled exactly over the rationals; Number.prototype.toFixed on the
  nonnegative values arising here is half-up rounding to d fractional
  digits.
- The fetch loop is modelled as a fuel-indexed trace of page requests;
  the remote node is an oracle giving the signature page for a cursor
  and a per-attempt outcome for each transaction resolution.  Sleeping
  has no observable effect and is not modelled.
-/

abbrev Byte := Fin 256

abbrev Payload := List Byte

/-- Byte of a payload at an index, as a natural number (0 beyond the end;
in the source every read is guarded by a length check, so the padding is
never observed). -/
def byteAt (p : Payload) (i : ℕ) : ℕ := (p.getD i 0).val

/-- Buffer.readBigUInt64LE: 8-byte little-endian unsigned integer. -/
def readBigUInt64LE (p : Payload) (off : ℕ) : ℕ :=
  byteAt p off + 256 * (byteAt p (off + 1) + 256 * (byteAt p (off + 2) +
    256 * (byteAt p (off + 3) + 256 * (byteAt p (off + 4) + 256 * (byteAt p (off + 5) +
    256 * (byteAt p (off + 6) + 256 * byteAt p (off + 7)))))))

/-- Buffer.readUInt32LE: 4-byte little-endian unsigned integer. -/
def readUInt32LE (p : Payload) (off : ℕ) : ℕ :=
  byteAt p off + 256 * (byteAt p (off + 1) + 256 * (byteAt p (off + 2) +
    256 * byteAt p (off + 3)))

/-- Buffer.readBigInt64LE: 8-byte little-endian two's-complement signed
integer. -/
def readBigInt64LE (p : Payload) (off : ℕ) : ℤ :=
  if readBigUInt64LE p off < 2 ^ 63 then (readBigUInt64LE p off : ℤ)
  else (readBigUInt64LE p off : ℤ) - 2 ^ 64

/-- Left-pad a digit string with zeros to width d. -/
def padZeros (s : String) (d : ℕ) : String :=
  String.mk (List.replicate (d - s.length) '0') ++ s

/-- Number.prototype.toFixed restricted to the nonnegative rationals the
decoder produces: half-up rounding to d fractional digits, rendered with
exactly d digits after the point. -/
def toFixed (q : ℚ) (d : ℕ) : String :=
  toString ((⌊q * 10 ^ d + 1 / 2⌋).toNat / 10 ^ d) ++ "." ++
    padZeros (toString ((⌊q * 10 ^ d + 1 / 2⌋).toNat % 10 ^ d)) d

/-- Decimal rendering of an integer that counts multiples of 10 ^ (-d):
the integer part, a point, then the remainder padded to d digits.  This
is the specification's reading of "divided by 10 ^ d, formatted to d
decimal places". -/
def decimalString (n d : ℕ) : String :=
  toString (n / 10 ^ d) ++ "." ++ padZeros (toString (n % 10 ^ d)) d

/-- Order type of a trade event ("Market" or "Limit"). -/
inductive OrderType | market | limit
deriving DecidableEq

/-- Order side of a trade event ("Bid" or "Ask"). -/
inductive OrderSide | bid | ask
deriving DecidableEq

/-- Role of a trade event ("Taker" or "Maker"). -/
inductive Role | taker | maker
deriving DecidableEq

/-- Trade action of a trade event ("Buy" or "Sell"). -/
inductive TradeAction | buy | sell
deriving DecidableEq

/-- TradeEvent of src/services/TradeFetcher.ts (instrument is the
constant "SOL/USDC" and originalLog is the input text, both omitted). -/
structure TradeEvent where
  orderId : String
  amount : String
  price : String
  orderType : OrderType
  orderSide : OrderSide
  role : Role
  tradeAction : TradeAction
  signature : String
  timestamp : ℤ
deriving DecidableEq

/-- FeeEvent of src/services/TradeFetcher.ts. -/
structure FeeEvent where
  orderId : String
  amount : String
  signature : String
  timestamp : ℤ
deriving DecidableEq

/-- OrderMgmtEvent of src/services/TradeFetcher.ts: declared in the
ParsedEvent union for order creation and cancellation events. -/
structure OrderMgmtEvent where
  subType : String
  orderId : String
  amount : String
  price : String
  orderSide : OrderSide
  signature : String
  timestamp : ℤ
deriving DecidableEq

/-- ParsedEvent union of src/services/TradeFetcher.ts. -/
inductive ParsedEvent
  | trade (e : TradeEvent)
  | fee (e : FeeEvent)
  | order (e : OrderMgmtEvent)
deriving DecidableEq

/-- The four recognized fill discriminators 0x12, 0x13, 0x0A, 0x0B. -/
def isFillTag (b : ℕ) : Prop := b = 0x12 ∨ b = 0x13 ∨ b = 0x0A ∨ b = 0x0B

instance (b : ℕ) : Decidable (isFillTag b) := by unfold isFillTag; infer_instance

/-- Discriminators decoded as LONG (bid / buy): 0x12 and 0x0A. -/
def isLongTag (b : ℕ) : Prop := b = 0x12 ∨ b = 0x0A

instance (b : ℕ) : Decidable (isLongTag b) := by unfold isLongTag; infer_instance

/-- Timestamp resolution of the fill branch: for length ≥ 48 read a
signed 64-bit little-endian value in the last 8 bytes, otherwise for
length ≥ 40 an unsigned 32-bit value in the last 4 bytes; accept it only
inside the 2020-2030 window, else fall back to the block time. -/
def fillTimestamp (p : Payload) (blockTime : ℤ) : ℤ :=
  if 48 ≤ p.length then
    if 1577836800 < readBigInt64LE p (p.length - 8) ∧
        readBigInt64LE p (p.length - 8) < 1893456000 then
      readBigInt64LE p (p.length - 8)
    else blockTime
  else if 40 ≤ p.length then
    if 1577836800 < (readUInt32LE p (p.length - 4) : ℤ) ∧
        ((readUInt32LE p (p.length - 4) : ℤ)) < 1893456000 then
      (readUInt32LE p (p.length - 4) : ℤ)
    else blockTime
  else blockTime

/-- Base-asset amount of a fill payload: bytes 16-24 divided by 10^9. -/
def fillBaseAmount (p : Payload) : ℚ := (readBigUInt64LE p 16 : ℚ) / 1000000000

/-- Quote-asset amount of a fill payload: bytes 24-32 divided by 10^6. -/
def fillQuoteAmount (p : Payload) : ℚ := (readBigUInt64LE p 24 : ℚ) / 1000000

/-- Unit price of a fill payload: quote amount over base amount when the
base amount is positive, else 0 (the source initializes unitPrice to 0
and only divides when size > 0). -/
def fillUnitPrice (p : Payload) : ℚ :=
  if 0 < fillBaseAmount p then fillQuoteAmount p / fillBaseAmount p else 0

/-- Core decoder parseLog of src/services/TradeFetcher.ts: dispatch on
the leading discriminator byte; 0x17 yields a fee event, a recognized
fill tag with length ≥ 40 yields a trade event after the price sanity
filter, anything else yields nothing. -/
def parseLog (p : Payload) (blockTime : ℤ) (signature : String) : Option ParsedEvent :=
  if p.length < 16 then none
  else if byteAt p 0 = 0x17 then
    some (ParsedEvent.fee
      { orderId := "N/A"
        amount := toFixed ((readBigUInt64LE p 8 : ℚ) / 1000000) 6
        signature := signature
        timestamp := blockTime })
  else if 40 ≤ p.length ∧ isFillTag (byteAt p 0) then
    if fillUnitPrice p < 1 ∨ 5000 < fillUnitPrice p then none
    else
      some (ParsedEvent.trade
        { orderId := toString (readBigUInt64LE p 8)
          amount := toFixed (fillBaseAmount p) 2
          price := toFixed (fillUnitPrice p) 2
          orderType := OrderType.market
          orderSide := if isLongTag (byteAt p 0) then OrderSide.bid else OrderSide.ask
          role := Role.taker
          tradeAction := if isLongTag (byteAt p 0) then TradeAction.buy else TradeAction.sell
          signature := signature
          timestamp := fillTimestamp p blockTime })
  else none

/-- Discriminators decoded as SHORT by the legacy decoder: 0x13, 0x0B. -/
def isShortTag (b : ℕ) : Prop := b = 0x13 ∨ b = 0x0B

instance (b : ℕ) : Decidable (isShortTag b) := by unfold isShortTag; infer_instance

/-- Record produced by the parseLog of the legacy fetcher embedded in
src/utils/decode-history.ts; its fee field is a JavaScript number. -/
structure LegacyParsed where
  action : String
  side : String
  size : String
  price : String
  fee : ℚ
  timestamp : ℤ
deriving DecidableEq

/-- parseLog of the legacy fetcher embedded in src/utils/decode-history.ts:
same offsets and scaling as the core decoder, but no discriminator check
and no price sanity filter on the trade branch, price "0" on a zero base
amount, and the fee kept as a number. -/
def parseLogLegacy (p : Payload) (blockTime : ℤ) : Option LegacyParsed :=
  if p.length < 16 then none
  else if byteAt p 0 = 0x17 then
    some { action := "FEE", side := "UNKNOWN", size := "0", price := "0",
           fee := (readBigUInt64LE p 8 : ℚ) / 1000000, timestamp := blockTime }
  else if 40 ≤ p.length then
    some { action := "TRADE"
           side := if isLongTag (byteAt p 0) then "LONG"
                   else if isShortTag (byteAt p 0) then "SHORT" else "UNKNOWN"
           size := toFixed (fillBaseAmount p) 9
           price := if 0 < fillBaseAmount p then
                      toFixed (fillQuoteAmount p / fillBaseAmount p) 2
                    else "0"
           fee := 0
           timestamp := fillTimestamp p blockTime }
  else none

/-- TradeRecord stored by the legacy fetcher (decode-history.ts): size
and price are strings, but fee is a number "for easy calculation". -/
structure TradeRecord where
  signature : String
  timestamp : ℤ
  market : String
  action : String
  side : String
  size : String
  price : String
  fee : ℚ

/-- Record construction in the legacy fetch loop: market is the constant
"SOL-PERP" and the remaining fields are copied from the parsed log. -/
def mkTradeRecord (sig : String) (lp : LegacyParsed) : TradeRecord :=
  { signature := sig, timestamp := lp.timestamp, market := "SOL-PERP",
    action := lp.action, side := lp.side, size := lp.size,
    price := lp.price, fee := lp.fee }

/-- JSON value model for the output of JSON.stringify: string members
stay strings, number members become JSON numbers.  The stringify
replacer in saveToFile maps bigint values to strings, and no field of
either record type holds a bigint, so the replacer is the identity
here. -/
inductive JsonValue
  | str (s : String)
  | num (q : ℚ)
  | obj (fields : List (String × JsonValue))

/-- Whether a JSON value is a string. -/
def JsonValue.isStr : JsonValue → Bool
  | .str _ => true
  | _ => false

/-- Lookup of a member in a JSON object member list. -/
def lookupField : List (String × JsonValue) → String → Option JsonValue
  | [], _ => none
  | (k, v) :: rest, key => if k = key then some v else lookupField rest key

/-- Member list of a JSON object (empty for non-objects). -/
def objFields : JsonValue → List (String × JsonValue)
  | .obj fs => fs
  | _ => []

/-- Member of a JSON object by name. -/
def jsonField (j : JsonValue) (k : String) : Option JsonValue :=
  lookupField (objFields j) k

/-- Rendering of the order type. -/
def orderTypeString : OrderType → String
  | .market => "Market"
  | .limit => "Limit"

/-- Rendering of the order side. -/
def orderSideString : OrderSide → String
  | .bid => "Bid"
  | .ask => "Ask"

/-- Rendering of the role. -/
def roleString : Role → String
  | .taker => "Taker"
  | .maker => "Maker"

/-- Rendering of the trade action. -/
def tradeActionString : TradeAction → String
  | .buy => "Buy"
  | .sell => "Sell"

/-- JSON serialization of one ParsedEvent, member order as constructed in
the source. -/
def eventToJson : ParsedEvent → JsonValue
  | .trade e => .obj
      [("type", .str "TRADE"), ("instrument", .str "SOL/USDC"),
       ("orderId", .str e.orderId), ("amount", .str e.amount),
       ("price", .str e.price), ("orderType", .str (orderTypeString e.orderType)),
       ("orderSide", .str (orderSideString e.orderSide)),
       ("role", .str (roleString e.role)),
       ("tradeAction", .str (tradeActionString e.tradeAction)),
       ("signature", .str e.signature), ("timestamp", .num (e.timestamp : ℚ))]
  | .fee e => .obj
      [("type", .str "FEE"), ("instrument", .str "SOL/USDC"),
       ("orderId", .str e.orderId), ("amount", .str e.amount),
       ("signature", .str e.signature), ("timestamp", .num (e.timestamp : ℚ))]
  | .order e => .obj
      [("type", .str "ORDER"), ("instrument", .str "SOL/USDC"),
       ("subType", .str e.subType), ("orderId", .str e.orderId),
       ("amount", .str e.amount), ("price", .str e.price),
       ("orderSide", .str (orderSideString e.orderSide)),
       ("signature", .str e.signature), ("timestamp", .num (e.timestamp : ℚ))]

/-- saveToFile of src/services/TradeFetcher.ts: the JSON array written
to disk, one object per event. -/
def saveToFile (events : List ParsedEvent) : List JsonValue :=
  events.map eventToJson

/-- JSON serialization of one legacy TradeRecord, member order as
constructed in the source; the fee member is a JSON number. -/
def tradeRecordToJson (r : TradeRecord) : JsonValue :=
  .obj [("signature", .str r.signature), ("timestamp", .num (r.timestamp : ℚ)),
        ("market", .str r.market), ("action", .str r.action),
        ("side", .str r.side), ("size", .str r.size),
        ("price", .str r.price), ("fee", .num r.fee)]

/-- saveToFile of the legacy fetcher embedded in decode-history.ts. -/
def saveToFileLegacy (records : List TradeRecord) : List JsonValue :=
  records.map tradeRecordToJson

abbrev Sig := ℕ

/-- Outcome of one getParsedTransaction call: success, a 429 rate-limit
class error, or any other error. -/
inductive TxOutcome | ok | rateLimited | failed
deriving DecidableEq

/-- Outcome of one Promise.all over a batch at a given attempt: the
first non-ok member outcome, else ok. -/
def batchOutcome (resolve : Sig → ℕ → TxOutcome) (batch : List Sig) (attempt : ℕ) :
    TxOutcome :=
  match batch with
  | [] => .ok
  | s :: rest =>
    match resolve s attempt with
    | .ok => batchOutcome resolve rest attempt
    | e => e

/-- Retry loop around one batch in fetchAllTrades of TradeFetcher.ts:
on success the whole batch is processed, on a 429 outcome the batch is
retried (the fuel is the remaining attempt budget, MAX_RETRIES = 3 at
the top call), on any other error the batch is skipped; exhaustion of
the budget also leaves the batch unprocessed. -/
def tryBatch (resolve : Sig → ℕ → TxOutcome) (batch : List Sig) :
    ℕ → ℕ → List Sig
  | _, 0 => []
  | attempt, fuel + 1 =>
    match batchOutcome resolve batch attempt with
    | .ok => batch
    | .rateLimited => tryBatch resolve batch (attempt + 1) fuel
    | .failed => []

/-- Slices of length BATCH_SIZE = 3, as taken by the batch loop. -/
def chunks : List Sig → List (List Sig)
  | [] => []
  | [a] => [[a]]
  | [a, b] => [[a, b]]
  | a :: b :: c :: rest => [a, b, c] :: chunks rest

/-- Signatures of one page whose transactions are fetched and parsed:
the batches are processed in order and a batch contributes its members
exactly when its retry loop succeeds. -/
def processPage (resolve : Sig → ℕ → TxOutcome) (sigs : List Sig) : List Sig :=
  ((chunks sigs).map (fun b => tryBatch resolve b 0 3)).flatten

/-- One signature-page request of fetchAllTrades: the cursor passed as
the before bound, the page the oracle returned, and the signatures whose
transactions were fetched and parsed. -/
structure PageStep where
  cursor : Option Sig
  page : List Sig
  processed : List Sig
deriving DecidableEq

/-- Page loop of fetchAllTrades of TradeFetcher.ts as a fuel-indexed
trace: request a page at the cursor; an empty page ends the loop with no
transaction processed; otherwise process the page and continue with the
last signature of the page as the next cursor. -/
def fetchRunTrace (pages : Option Sig → List Sig) (resolve : Sig → ℕ → TxOutcome) :
    ℕ → Option Sig → List PageStep
  | 0, _ => []
  | fuel + 1, cursor =>
    if h : pages cursor = [] then [{ cursor := cursor, page := [], processed := [] }]
    else
      { cursor := cursor, page := pages cursor,
        processed := processPage resolve (pages cursor) } ::
        fetchRunTrace pages resolve fuel (some ((pages cursor).getLast h))

/-- Rate-limit wait of TradeFetcher.ts: 10000 * retryCount ms. -/
def waitTime (retryCount : ℕ) : ℕ := 10000 * retryCount

/-- Rate-limit wait of TradeFetcher-sdk.ts:
min(DELAY_MS * 2 ^ retryCount, 128000) ms with DELAY_MS = 2000. -/
def backoffDelay (retryCount : ℕ) : ℕ := min (2000 * 2 ^ retryCount) 128000

/-- Result of the batch retry loop of TradeFetcher-sdk.ts. -/
inductive SdkBatchResult | success | exhausted | raised
deriving DecidableEq

/-- Batch retry loop of fetchAllTrades of TradeFetcher-sdk.ts
(MAX_RETRIES = 7 at the top call): a 429 outcome is retried, a non-429
error is re-thrown, exhaustion falls through with the batch marked
failed but no exception. -/
def sdkTryBatch (resolve : Sig → ℕ → TxOutcome) (batch : List Sig) :
    ℕ → ℕ → SdkBatchResult
  | _, 0 => .exhausted
  | attempt, fuel + 1 =>
    match batchOutcome resolve batch attempt with
    | .ok => .success
    | .rateLimited => sdkTryBatch resolve batch (attempt + 1) fuel
    | .failed => .raised

/-- Example A of the specification, instantiated with zero padding:
48-byte payload, discriminator 0x12, order id 6272033 at bytes 8-16, raw
base amount 100000000 at bytes 16-24, raw quote amount 338461479 at
bytes 24-32, embedded 64-bit timestamp 1770346835 in the last 8 bytes. -/
def exampleA : Payload :=
  [0x12, 0, 0, 0, 0, 0, 0, 0,
   0x21, 0xB4, 0x5F, 0, 0, 0, 0, 0,
   0x00, 0xE1, 0xF5, 0x05, 0, 0, 0, 0,
   0x27, 0x83, 0x2C, 0x14, 0, 0, 0, 0,
   0, 0, 0, 0, 0, 0, 0, 0,
   0x53, 0x59, 0x85, 0x69, 0, 0, 0, 0]

/-- A 40-byte fill payload whose unit price is exactly 1: raw base
amount 1000000000 (1.0 SOL) and raw quote amount 1000000 (1.0 USDC). -/
def priceOnePayload : Payload :=
  [0x12, 0, 0, 0, 0, 0, 0, 0,
   0, 0, 0, 0, 0, 0, 0, 0,
   0x00, 0xCA, 0x9A, 0x3B, 0, 0, 0, 0,
   0x40, 0x42, 0x0F, 0, 0, 0, 0, 0,
   0, 0, 0, 0, 0, 0, 0, 0]

/-- A 40-byte fill payload with order id 42, raw base amount 2000000000
(2.0 SOL) and raw quote amount 400000000 (400.0 USDC), unit price 200. -/
def fillSampleA : Payload :=
  [0x12, 0, 0, 0, 0, 0, 0, 0,
   0x2A, 0, 0, 0, 0, 0, 0, 0,
   0x00, 0x94, 0x35, 0x77, 0, 0, 0, 0,
   0x00, 0x84, 0xD7, 0x17, 0, 0, 0, 0,
   0, 0, 0, 0, 0, 0, 0, 0]

/-- A minimal 16-byte fee payload with raw fee value 3897 at offset 8. -/
def feePayloadC2 : Payload :=
  [0x17, 0, 0, 0, 0, 0, 0, 0,
   0x39, 0x0F, 0, 0, 0, 0, 0, 0]

/-- Example B of the specification: 24-byte payload, discriminator 0x17,
raw value 3897 at offset 8. -/
def feePayloadB : Payload :=
  [0x17, 0, 0, 0, 0, 0, 0, 0,
   0x39, 0x0F, 0, 0, 0, 0, 0, 0,
   0, 0, 0, 0, 0, 0, 0, 0]

/-- The legacy parse of Example B: a FEE record with the fee kept as the
number 0.003897. -/
def lpB : LegacyParsed :=
  { action := "FEE", side := "UNKNOWN", size := "0", price := "0",
    fee := 3897 / 1000000, timestamp := 0 }

/-- A 16-byte payload with the unrecognized discriminator 0x20. -/
def unrec16 : Payload :=
  [0x20, 0, 0, 0, 0, 0, 0, 0, 0, 0, 0, 0, 0, 0, 0, 0]

/-- An 18-byte payload carrying the recognized fill tag 0x12 but shorter
than the 40 bytes a fill needs. -/
def shortFill : Payload :=
  [0x12, 0, 0, 0, 0, 0, 0, 0, 0, 0, 0, 0, 0, 0, 0, 0, 0, 0]

/-- Transaction oracle where only signature 1 fails with a terminal
(non-429) error, at every attempt; every other signature resolves. -/
def resolveA : Sig → ℕ → TxOutcome :=
  fun s _ => if s = 1 then TxOutcome.failed else TxOutcome.ok

/-- Transaction oracle where every resolution succeeds. -/
def resolveOk : Sig → ℕ → TxOutcome := fun _ _ => TxOutcome.ok

/-- Transaction oracle where every resolution is rate limited. -/
def rlResolve : Sig → ℕ → TxOutcome := fun _ _ => TxOutcome.rateLimited

/-- Signature-page oracle: the first request (no cursor) returns the
page 1, 2, 3, 4 and every cursored request returns the empty page. -/
def pagesW : Option Sig → List Sig :=
  fun c => if c = none then [1, 2, 3, 4] else []

/-- A sample fee event, as parseLog emits for Example B. -/
def feeEventW : ParsedEvent :=
  ParsedEvent.fee
    { orderId := "N/A", amount := "0.003897", signature := "s", timestamp := 0 }

/-- A recognized fill tag is never the fee tag. -/
theorem isFillTag_ne_fee {b : ℕ} (h : isFillTag b) : ¬ b = 0x17 := by
  rcases h with rfl | rfl | rfl | rfl <;> decide

/-- Half-up rounding is exact on a value that is an integer multiple of
10 ^ (-d): toFixed agrees with the plain decimal rendering. -/
theorem toFixed_natCast_div (n d : ℕ) :
    toFixed ((n : ℚ) / 10 ^ d) d = decimalString n d := by
  unfold toFixed decimalString
  have h10 : ((10 : ℚ) ^ d) ≠ 0 := by positivity
  rw [div_mul_cancel₀ _ h10]
  have h2 : ⌊(n : ℚ) + 1 / 2⌋ = (n : ℤ) := by
    rw [show ((n : ℚ)) = ((n : ℤ) : ℚ) from by push_cast; ring,
      Int.floor_int_add]
    norm_num
  rw [h2]
  simp

/-- C1: for every payload of length at least 40 whose discriminator is a
recognized fill tag, and every block time: the decoded base amount is
little-endian-u64(bytes 16-24) / 10^9 and the quote amount is
little-endian-u64(bytes 24-32) / 10^6; a zero raw base amount makes the
decoder emit nothing; and any emitted trade event carries as price the
quotient quote amount / base amount (rendered by toFixed 2), with the
base amount necessarily positive. -/
theorem fill_amounts_price_zero_base (p : Payload) (t : ℤ) (sig : String)
    (hlen : 40 ≤ p.length) (hfill : isFillTag (byteAt p 0)) :
    fillBaseAmount p = (readBigUInt64LE p 16 : ℚ) / 1000000000 ∧
    fillQuoteAmount p = (readBigUInt64LE p 24 : ℚ) / 1000000 ∧
    (readBigUInt64LE p 16 = 0 → parseLog p t sig = none) ∧
    (∀ e, parseLog p t sig = some (ParsedEvent.trade e) →
      0 < readBigUInt64LE p 16 ∧
      e.price = toFixed (fillQuoteAmount p / fillBaseAmount p) 2) := by
  have hne : ¬ p.length < 16 := by omega
  have hd : ¬ byteAt p 0 = 0x17 := isFillTag_ne_fee hfill
  refine ⟨rfl, rfl, ?_, ?_⟩
  · intro h0
    have hup : fillUnitPrice p = 0 := by
      rw [fillUnitPrice, fillBaseAmount, h0]; norm_num
    unfold parseLog
    rw [if_neg hne, if_neg hd, if_pos ⟨hlen, hfill⟩, hup,
      if_pos (Or.inl (by norm_num : (0 : ℚ) < 1))]
  · intro e he
    unfold parseLog at he
    rw [if_neg hne, if_neg hd, if_pos ⟨hlen, hfill⟩] at he
    by_cases hflt : fillUnitPrice p < 1 ∨ 5000 < fillUnitPrice p
    · rw [if_pos hflt] at he; exact absurd he (by simp)
    · rw [if_neg hflt] at he
      push_neg at hflt
      have hbpos : 0 < readBigUInt64LE p 16 := by
        by_contra hc
        have h0 : readBigUInt64LE p 16 = 0 := by omega
        have hup : fillUnitPrice p = 0 := by
          rw [fillUnitPrice, fillBaseAmount, h0]; norm_num
        rw [hup] at hflt
        exact absurd hflt.1 (by norm_num)
      refine ⟨hbpos, ?_⟩
      have hb : 0 < fillBaseAmount p := by
        rw [fillBaseAmount]
        exact div_pos (by exact_mod_cast hbpos) (by norm_num)
      have hup : fillUnitPrice p = fillQuoteAmount p / fillBaseAmount p := by
        rw [fillUnitPrice, if_pos hb]
      simp only [Option.some.injEq, ParsedEvent.trade.injEq] at he
      rw [← he]
      show toFixed (fillUnitPrice p) 2 = _
      rw [hup]

/-- C1 witness: the theorem instantiated at a concrete 40-byte fill
payload (base 2.0 SOL, quote 400.0 USDC). -/
theorem fill_amounts_price_zero_base_witness :
    fillBaseAmount fillSampleA = (readBigUInt64LE fillSampleA 16 : ℚ) / 1000000000 ∧
    fillQuoteAmount fillSampleA = (readBigUInt64LE fillSampleA 24 : ℚ) / 1000000 ∧
    (readBigUInt64LE fillSampleA 16 = 0 → parseLog fillSampleA 7 "w" = none) ∧
    (∀ e, parseLog fillSampleA 7 "w" = some (ParsedEvent.trade e) →
      0 < readBigUInt64LE fillSampleA 16 ∧
      e.price = toFixed (fillQuoteAmount fillSampleA / fillBaseAmount fillSampleA) 2) :=
  fill_amounts_price_zero_base fillSampleA 7 "w" (by decide) (by decide)

/-- C2: for every payload of length at least 16 whose discriminator is
the fee tag 0x17, and every block time t, parseLog emits a fee event
whose amount is little-endian-u64(bytes 8-16) / 10^6 rendered with
exactly 6 decimal places and whose timestamp is t, regardless of the
remaining bytes or the total length. -/
theorem fee_event_format (p : Payload) (t : ℤ) (sig : String)
    (hlen : 16 ≤ p.length) (hd : byteAt p 0 = 0x17) :
    parseLog p t sig = some (ParsedEvent.fee
      { orderId := "N/A", amount := decimalString (readBigUInt64LE p 8) 6,
        signature := sig, timestamp := t }) := by
  unfold parseLog
  rw [if_neg (by omega), if_pos hd,
    show ((1000000 : ℚ)) = 10 ^ 6 from by norm_num, toFixed_natCast_div]

/-- C2 witness: the theorem instantiated at a concrete 16-byte fee
payload with raw value 3897. -/
theorem fee_event_format_witness :
    parseLog feePayloadC2 5 "w" = some (ParsedEvent.fee
      { orderId := "N/A", amount := decimalString (readBigUInt64LE feePayloadC2 8) 6,
        signature := "w", timestamp := 5 }) :=
  fee_event_format feePayloadC2 5 "w" (by decide) (by decide)

/-- The first entry of a nonempty fetch trace records the cursor the
trace was started with. -/
theorem fetchRunTrace_head_cursor (pages : Option Sig → List Sig)
    (resolve : Sig → ℕ → TxOutcome) (f : ℕ) (c : Option Sig) (y : PageStep)
    (h : (fetchRunTrace pages resolve f c).head? = some y) : y.cursor = c := by
  cases f with
  | zero => simp [fetchRunTrace] at h
  | succ f =>
    unfold fetchRunTrace at h
    by_cases hp : pages c = []
    · rw [dif_pos hp] at h
      simp only [List.head?_cons, Option.some.injEq] at h
      rw [← h]
    · rw [dif_neg hp] at h
      simp only [List.head?_cons, Option.some.injEq] at h
      rw [← h]

/-- C3: in the fetch pipeline, along every trace of page requests, every
request that is followed by another one returned a nonempty page (so a
zero-signature page ends the iteration), a request that returned the
empty page processed no transactions, and the cursor passed to a request
is never equal to the cursor passed to the next request — provided the
remote service honours the exclusive before bound, never listing the
cursor signature in its own page. -/
theorem pagination_empty_ends_cursor_advances (pages : Option Sig → List Sig)
    (resolve : Sig → ℕ → TxOutcome) (f : ℕ) (c : Option Sig)
    (hex : ∀ s : Sig, s ∉ pages (some s)) :
    List.Chain' (fun a b => a.page ≠ [] ∧ a.cursor ≠ b.cursor)
      (fetchRunTrace pages resolve f c) ∧
    (∀ e ∈ fetchRunTrace pages resolve f c, e.page = [] → e.processed = []) := by
  induction f generalizing c with
  | zero => exact ⟨List.chain'_nil, by simp [fetchRunTrace]⟩
  | succ f ih =>
    unfold fetchRunTrace
    by_cases hp : pages c = []
    · rw [dif_pos hp]
      refine ⟨List.chain'_singleton _, ?_⟩
      intro e he _
      simp only [List.mem_singleton] at he
      rw [he]
    · rw [dif_neg hp]
      obtain ⟨ih1, ih2⟩ := ih (some ((pages c).getLast hp))
      constructor
      · rw [List.chain'_cons']
        refine ⟨?_, ih1⟩
        intro y hy
        have hcur := fetchRunTrace_head_cursor pages resolve f _ y hy
        refine ⟨hp, ?_⟩
        show c ≠ y.cursor
        rw [hcur]
        cases c with
        | none => simp
        | some c0 =>
          intro hcc
          injection hcc with hcc
          exact hex c0 (by nth_rewrite 2 [hcc]; exact List.getLast_mem hp)
      · intro e he hpe
        rcases List.mem_cons.mp he with rfl | hmem
        · exact absurd hpe hp
        · exact ih2 e hmem hpe

/-- C3 witness: the theorem instantiated at a concrete oracle whose
first page is 1, 2, 3, 4 and whose every cursored page is empty. -/
theorem pagination_empty_ends_cursor_advances_witness :
    List.Chain' (fun a b => a.page ≠ [] ∧ a.cursor ≠ b.cursor)
      (fetchRunTrace pagesW resolveOk 3 none) ∧
    (∀ e ∈ fetchRunTrace pagesW resolveOk 3 none, e.page = [] → e.processed = []) :=
  pagination_empty_ends_cursor_advances pagesW resolveOk 3 none
    (by intro s; simp [pagesW])

/-- A batch whose Promise.all succeeds at a given attempt is processed
whole by the retry loop. -/
theorem tryBatch_ok (resolve : Sig → ℕ → TxOutcome) (batch : List Sig)
    (attempt fuel : ℕ) (h : batchOutcome resolve batch attempt = TxOutcome.ok) :
    tryBatch resolve batch attempt (fuel + 1) = batch := by
  unfold tryBatch
  rw [h]

/-- C4 counterexample: in the page 1, 2, 3, 4, a terminal (non-429)
failure on the single signature 1 leaves the whole first batch 1, 2, 3
unprocessed: the sibling signatures 2 and 3 of the same page are not
fetched, contradicting the claim that all remaining signatures of the
page are still processed. -/
theorem batch_granularity_cex :
    processPage resolveA [1, 2, 3, 4] = [4] ∧
    2 ∉ processPage resolveA [1, 2, 3, 4] ∧
    3 ∉ processPage resolveA [1, 2, 3, 4] := by decide

/-- C4 amended: failure isolation holds at batch granularity: a batch of
the page whose resolution succeeds is processed in full no matter how
resolutions outside it fail terminally, and the sequence of page
requests (cursors and pages) of the whole run does not depend on the
transaction-resolution oracle at all, so later batches and all later
pages are still fetched. -/
theorem batch_isolation_amended (resolve r2 : Sig → ℕ → TxOutcome)
    (pages : Option Sig → List Sig) (f : ℕ) (c : Option Sig)
    (sigs b : List Sig) (s : Sig)
    (hb : b ∈ chunks sigs) (hok : batchOutcome resolve b 0 = TxOutcome.ok)
    (hs : s ∈ b) :
    s ∈ processPage resolve sigs ∧
    (fetchRunTrace pages resolve f c).map (fun e => (e.cursor, e.page)) =
      (fetchRunTrace pages r2 f c).map (fun e => (e.cursor, e.page)) := by
  constructor
  · unfold processPage
    refine List.mem_flatten.mpr ⟨tryBatch resolve b 0 3, List.mem_map_of_mem _ hb, ?_⟩
    rw [show (3 : ℕ) = 2 + 1 from rfl, tryBatch_ok resolve b 0 2 hok]
    exact hs
  · induction f generalizing c with
    | zero => rfl
    | succ f ih =>
      unfold fetchRunTrace
      by_cases hp : pages c = []
      · rw [dif_pos hp, dif_pos hp]
      · rw [dif_neg hp, dif_neg hp]
        simp only [List.map_cons]
        rw [ih]

/-- C4 amended witness: the theorem instantiated at the page 1, 2, 3, 4
with signature 1 failing terminally: the clean batch containing 4 is
processed and the page requests are unchanged. -/
theorem batch_isolation_amended_witness :
    4 ∈ processPage resolveA [1, 2, 3, 4] ∧
    (fetchRunTrace pagesW resolveA 3 none).map (fun e => (e.cursor, e.page)) =
      (fetchRunTrace pagesW resolveOk 3 none).map (fun e => (e.cursor, e.page)) :=
  batch_isolation_amended resolveA resolveOk pagesW 3 none [1, 2, 3, 4] [4] 4
    (by decide) (by decide) (by decide)

/-- C5 counterexample: the rate-limit waits of TradeFetcher.ts are
10000, 20000, 30000 ms for the successive retries: linear, and the
third delay is not the double of the second, contradicting the claimed
doubling of the delay at each retry attempt. -/
theorem linear_backoff_cex :
    waitTime 1 = 10000 ∧ waitTime 2 = 20000 ∧ waitTime 3 = 30000 ∧
    ¬ waitTime 3 = 2 * waitTime 2 := by decide

/-- An everywhere rate-limited batch exhausts the SDK retry loop instead
of raising. -/
theorem sdkTryBatch_rl (resolve : Sig → ℕ → TxOutcome) (batch : List Sig)
    (hrl : ∀ a, batchOutcome resolve batch a = TxOutcome.rateLimited) :
    ∀ fuel attempt, sdkTryBatch resolve batch attempt fuel = SdkBatchResult.exhausted := by
  intro fuel
  induction fuel with
  | zero => intro attempt; rfl
  | succ f ih =>
    intro attempt
    unfold sdkTryBatch
    rw [hrl attempt]
    exact ih (attempt + 1)

/-- C5 amended: only the SDK fetcher backs off exponentially: its delay
min(2000 * 2 ^ retryCount, 128000) doubles at each retry until the
128000 ms cap and never exceeds it; the primary fetcher waits linearly,
adding 10000 ms per retry; and when every attempt is rate limited the
SDK batch loop (capped at 7 attempts) ends in exhaustion, surrendering
the batch without raising. -/
theorem exponential_backoff_amended (k : ℕ) (resolve : Sig → ℕ → TxOutcome)
    (batch : List Sig)
    (hrl : ∀ a, batchOutcome resolve batch a = TxOutcome.rateLimited) :
    backoffDelay (k + 1) = min (2 * backoffDelay k) 128000 ∧
    backoffDelay k ≤ 128000 ∧
    waitTime (k + 1) = waitTime k + 10000 ∧
    sdkTryBatch resolve batch 0 7 = SdkBatchResult.exhausted := by
  refine ⟨?_, Nat.min_le_right _ _, by unfold waitTime; ring, sdkTryBatch_rl resolve batch hrl 7 0⟩
  unfold backoffDelay
  rw [pow_succ]
  generalize (2 : ℕ) ^ k = a
  rcases Nat.le_total (2000 * a) 128000 with h | h
  · rw [Nat.min_eq_left h]
    congr 1
    ring
  · rw [Nat.min_eq_right h,
      Nat.min_eq_right (by omega : 128000 ≤ 2000 * (a * 2)),
      Nat.min_eq_right (by omega : (128000 : ℕ) ≤ 2 * 128000)]

/-- C5 amended witness: the theorem instantiated at the first retry and
an everywhere rate-limited oracle. -/
theorem exponential_backoff_amended_witness :
    backoffDelay (0 + 1) = min (2 * backoffDelay 0) 128000 ∧
    backoffDelay 0 ≤ 128000 ∧
    waitTime (0 + 1) = waitTime 0 + 10000 ∧
    sdkTryBatch rlResolve [1] 0 7 = SdkBatchResult.exhausted :=
  exponential_backoff_amended 0 rlResolve [1] (fun _ => rfl)

/-- Half-up rounding stated through the rounded integer: toFixed of q to
d digits is the decimal rendering of the integer nearest q * 10 ^ d. -/
theorem toFixed_eq (q : ℚ) (d m : ℕ) (h : ⌊q * 10 ^ d + 1 / 2⌋ = (m : ℤ)) :
    toFixed q d = decimalString m d := by
  unfold toFixed decimalString
  rw [h]
  simp

/-- C6: the claim (matching the source's own comment, 1 < price < 5000)
says a fill whose unit price is exactly 1 must be rejected; the filter
as coded (unitPrice < 1 || unitPrice > 5000) accepts the boundary: on a
payload whose unit price is exactly 1 the decoder emits a trade event. -/
theorem price_band_boundary_accepted :
    fillUnitPrice priceOnePayload = 1 ∧
    (parseLog priceOnePayload 0 "sig").isSome = true := by
  have h16 : readBigUInt64LE priceOnePayload 16 = 1000000000 := by decide
  have h24 : readBigUInt64LE priceOnePayload 24 = 1000000 := by decide
  have hbase : fillBaseAmount priceOnePayload = 1 := by
    unfold fillBaseAmount; rw [h16]; norm_num
  have hquote : fillQuoteAmount priceOnePayload = 1 := by
    unfold fillQuoteAmount; rw [h24]; norm_num
  have hup : fillUnitPrice priceOnePayload = 1 := by
    unfold fillUnitPrice
    rw [hbase, hquote, if_pos (by norm_num : (0 : ℚ) < 1)]
    norm_num
  refine ⟨hup, ?_⟩
  unfold parseLog
  rw [if_neg (by decide : ¬ priceOnePayload.length < 16),
    if_neg (by decide : ¬ byteAt priceOnePayload 0 = 0x17),
    if_pos (⟨by decide, by decide⟩ :
      40 ≤ priceOnePayload.length ∧ isFillTag (byteAt priceOnePayload 0)),
    if_neg (show ¬ (fillUnitPrice priceOnePayload < 1 ∨
        5000 < fillUnitPrice priceOnePayload) from by rw [hup]; norm_num)]
  rfl

/-- Unit price of the Example A payload: 3384.61479. -/
theorem exampleA_unit_price : fillUnitPrice exampleA = 338461479 / 100000 := by
  have h16 : readBigUInt64LE exampleA 16 = 100000000 := by decide
  have h24 : readBigUInt64LE exampleA 24 = 338461479 := by decide
  have hbase : fillBaseAmount exampleA = 1 / 10 := by
    unfold fillBaseAmount; rw [h16]; norm_num
  have hquote : fillQuoteAmount exampleA = 338461479 / 1000000 := by
    unfold fillQuoteAmount; rw [h24]; norm_num
  unfold fillUnitPrice
  rw [hbase, hquote, if_pos (by norm_num : (0 : ℚ) < 1 / 10)]
  norm_num

/-- Full decode of the Example A payload at any block time. -/
theorem exampleA_parse (t : ℤ) (sig : String) :
    parseLog exampleA t sig = some (ParsedEvent.trade
      { orderId := "6272033", amount := "0.10", price := "3384.61",
        orderType := OrderType.market, orderSide := OrderSide.bid,
        role := Role.taker, tradeAction := TradeAction.buy,
        signature := sig, timestamp := 1770346835 }) := by
  have h16 : readBigUInt64LE exampleA 16 = 100000000 := by decide
  have hbase : fillBaseAmount exampleA = 1 / 10 := by
    unfold fillBaseAmount; rw [h16]; norm_num
  have hts : fillTimestamp exampleA t = 1770346835 := by
    unfold fillTimestamp
    rw [if_pos (by decide : 48 ≤ exampleA.length),
      show readBigInt64LE exampleA (exampleA.length - 8) = 1770346835 from by decide,
      if_pos (by norm_num)]
  have hlong : isLongTag (byteAt exampleA 0) := by decide
  unfold parseLog
  rw [if_neg (by decide : ¬ exampleA.length < 16),
    if_neg (by decide : ¬ byteAt exampleA 0 = 0x17),
    if_pos (⟨by decide, by decide⟩ :
      40 ≤ exampleA.length ∧ isFillTag (byteAt exampleA 0)),
    if_neg (show ¬ (fillUnitPrice exampleA < 1 ∨ 5000 < fillUnitPrice exampleA) from by
      rw [exampleA_unit_price]; norm_num)]
  rw [hts, hbase, exampleA_unit_price, if_pos hlong, if_pos hlong,
    show readBigUInt64LE exampleA 8 = 6272033 from by decide,
    show toString (6272033 : ℕ) = "6272033" from by decide,
    toFixed_eq (1 / 10 : ℚ) 2 10 (by norm_num),
    toFixed_eq (338461479 / 100000 : ℚ) 2 338461 (by norm_num),
    show decimalString 10 2 = "0.10" from by decide,
    show decimalString 338461 2 = "3384.61" from by decide]

/-- C7 counterexample: the Example A payload (discriminator 0x12, order
id 6272033, raw base 100000000, raw quote 338461479, embedded timestamp
1770346835) decodes to a trade event with amount string "0.10" and price
string "3384.61"; its unit price is 3384.61479 = 338461479 / 100000, not
the claimed 338.461479 = 338461479 / 1000000. -/
theorem exampleA_decode_cex :
    parseLog exampleA 0 "sig" = some (ParsedEvent.trade
      { orderId := "6272033", amount := "0.10", price := "3384.61",
        orderType := OrderType.market, orderSide := OrderSide.bid,
        role := Role.taker, tradeAction := TradeAction.buy,
        signature := "sig", timestamp := 1770346835 }) ∧
    fillUnitPrice exampleA = 338461479 / 100000 ∧
    ¬ fillUnitPrice exampleA = 338461479 / 1000000 := by
  refine ⟨exampleA_parse 0 "sig", exampleA_unit_price, ?_⟩
  rw [exampleA_unit_price]
  norm_num

/-- C7 amended: at every block time and signature, the Example A payload
decodes to a fill event with side bid / buy (long), base amount 0.1 SOL
rendered "0.10", unit price 3384.61479 rendered "3384.61", and timestamp
1770346835 taken from the embedded 64-bit value. -/
theorem exampleA_decode_amended (t : ℤ) (sig : String) :
    parseLog exampleA t sig = some (ParsedEvent.trade
      { orderId := "6272033", amount := "0.10", price := "3384.61",
        orderType := OrderType.market, orderSide := OrderSide.bid,
        role := Role.taker, tradeAction := TradeAction.buy,
        signature := sig, timestamp := 1770346835 }) :=
  exampleA_parse t sig

/-- C8: every payload of length at least 16 whose discriminator is
neither the fee tag nor a recognized fill tag decodes to nothing, and so
does every payload carrying a recognized fill tag but shorter than 40
bytes. -/
theorem unrecognized_skipped (p : Payload) (t : ℤ) (sig : String) :
    (16 ≤ p.length → ¬ byteAt p 0 = 0x17 → ¬ isFillTag (byteAt p 0) →
      parseLog p t sig = none) ∧
    (isFillTag (byteAt p 0) → p.length < 40 → parseLog p t sig = none) := by
  constructor
  · intro hlen hfee hfill
    unfold parseLog
    rw [if_neg (by omega), if_neg hfee, if_neg (fun h => hfill h.2)]
  · intro hfill hlen
    unfold parseLog
    by_cases h16 : p.length < 16
    · rw [if_pos h16]
    · rw [if_neg h16, if_neg (isFillTag_ne_fee hfill),
        if_neg (fun h => absurd h.1 (by omega))]

/-- C8 witness: the theorem instantiated at a 16-byte payload with the
unknown discriminator 0x20 and at an 18-byte payload with fill tag 0x12. -/
theorem unrecognized_skipped_witness :
    parseLog unrec16 0 "w" = none ∧ parseLog shortFill 0 "w" = none :=
  ⟨(unrecognized_skipped unrec16 0 "w").1 (by decide) (by decide) (by decide),
   (unrecognized_skipped shortFill 0 "w").2 (by decide) (by decide)⟩

/-- C9 counterexample: the legacy fetcher of decode-history.ts parses
the Example B fee payload into a record whose fee is the number
0.003897; its saveToFile serializes that record with the fee member as a
JSON number, not a decimal string. -/
theorem legacy_fee_number_cex :
    parseLogLegacy feePayloadB 0 = some lpB ∧
    tradeRecordToJson (mkTradeRecord "sig" lpB) ∈
      saveToFileLegacy [mkTradeRecord "sig" lpB] ∧
    jsonField (tradeRecordToJson (mkTradeRecord "sig" lpB)) "fee" =
      some (JsonValue.num (3897 / 1000000)) ∧
    JsonValue.isStr (JsonValue.num (3897 / 1000000)) = false := by
  have hfee : ((readBigUInt64LE feePayloadB 8 : ℕ) : ℚ) / 1000000 = 3897 / 1000000 := by
    rw [show readBigUInt64LE feePayloadB 8 = 3897 from by decide]
    norm_num
  refine ⟨?_, List.mem_singleton.mpr rfl, rfl, rfl⟩
  unfold parseLogLegacy
  rw [if_neg (by decide : ¬ feePayloadB.length < 16),
    if_pos (by decide : byteAt feePayloadB 0 = 0x17), hfee]
  rfl

/-- C9 amended: in the strict-event fetcher of TradeFetcher.ts, the
claim holds: every orderId, amount and price member of every object in
the saveToFile output is a JSON string (and the stringify replacer turns
any bigint into a string, though no field of these events holds one);
the legacy fetcher of decode-history.ts, however, stores the fee as a
number and serializes it as a JSON number. -/
theorem event_fields_serialized_as_strings (events : List ParsedEvent)
    (j : JsonValue) (k : String) (v : JsonValue)
    (hj : j ∈ saveToFile events)
    (hk : k = "orderId" ∨ k = "amount" ∨ k = "price")
    (hv : jsonField j k = some v) : v.isStr = true := by
  obtain ⟨e, _, rfl⟩ := List.mem_map.mp hj
  rcases hk with rfl | rfl | rfl <;> cases e <;>
    first
      | exact Option.noConfusion hv
      | (injection hv with h; rw [← h]; rfl)

/-- C9 amended witness: the theorem instantiated at a singleton fee
event list and its amount member. -/
theorem event_fields_serialized_as_strings_witness :
    JsonValue.isStr (JsonValue.str "0.003897") = true :=
  event_fields_serialized_as_strings [feeEventW] (eventToJson feeEventW)
    "amount" (JsonValue.str "0.003897")
    (List.mem_singleton.mpr rfl) (Or.inr (Or.inl rfl)) rfl

/-- C10: parseLog never constructs an order-management event: for every
payload, block time and signature, its result is never some order
event — the ORDER branch of the ParsedEvent union is unreachable from
the decoder. -/
theorem no_order_events (p : Payload) (t : ℤ) (sig : String) (o : OrderMgmtEvent) :
    parseLog p t sig ≠ some (ParsedEvent.order o) := by
  unfold parseLog
  intro h
  split_ifs at h <;> simp at h

/-- C10 witness: the theorem instantiated at a concrete payload and a
concrete order-management event. -/
theorem no_order_events_witness :
    parseLog unrec16 0 "w" ≠ some (ParsedEvent.order
      { subType := "New Bid Order", orderId := "0", amount := "0", price := "0",
        orderSide := OrderSide.bid, signature := "w", timestamp := 0 }) :=
  no_order_events unrec16 0 "w" _
